import Mathlib

/-! OpenGLShaderProgramWrapped

A shallow embedding of `src/OpenGL/openglshaderprogram.cpp`: the version
comment generator, the preprocessing front end `addShaderFromSourceFile`
and the post-link autoresolve binder `link`.

Calls into collaborators (the checked base program, the GL function table,
the uniform buffer manager, the GLSL parser, the file reader) are recorded
in an explicit call trace; their answers are supplied by an environment.
The initialisation of the GL function table (`initializeOpenGLFunctions`) has
no effect on these calls and is not recorded.

Texts (`QString`, `std::string`, `char const*`) are modelled by `String`; the
conversions between them (`toUtf8().constData()`, `c_str()`, `qPrintable`) are
the identity on text without an embedded NUL character, which is the text
considered here. A C++ `int` or `unsigned` is an `Int` or a `Nat`: the code
compares and prints these values and performs no arithmetic on them.
-/

namespace QtOpenGL

/-! ## Data model -/

/-- Decimal text of a C++ `int`, as produced by `QString::number(int)`:
an optional leading minus sign followed by the base-10 digits. -/
def QString.number (n : Int) : String :=
  match n with
  | Int.ofNat m => Nat.repr m
  | Int.negSucc m => "-" ++ Nat.repr (m + 1)

/-- The part of `QOpenGLContext` read by `getVersionComment`:
`format().version()` as a pair `(first, second)` and `isOpenGLES()`. -/
structure QOpenGLContext where
  version : Int × Int
  isOpenGLES : Bool
deriving DecidableEq, Repr

/-- Embedding of `OpenGLShaderProgramWrapped::getVersionComment`. The two nested
`switch` statements are rendered as chains of equality tests, each `default`
branch being the final `else`. -/
def getVersionComment (ctx : QOpenGLContext) : String :=
  let comment := "#version "
  let version := ctx.version
  let comment :=
    if ctx.isOpenGLES then
      comment ++ (QString.number version.1 ++ QString.number version.2 ++ "0 es")
    else
      if version.1 = 2 then
        if version.2 = 0 then comment ++ "110"
        else if version.2 = 1 then comment ++ "120"
        else comment ++ "120"
      else if version.1 = 3 then
        if version.2 = 0 then comment ++ "130"
        else if version.2 = 1 then comment ++ "140"
        else if version.2 = 2 then comment ++ "150"
        else comment ++ (QString.number version.1 ++ QString.number version.2 ++ "0")
      else
        comment ++ (QString.number version.1 ++ QString.number version.2 ++ "0")
  comment ++ "\n"

/-- The private data of a wrapped program (`OpenGLShaderProgramWrappedPrivate`):
the per-instance include paths and the accumulated autoresolve names. -/
structure OpenGLShaderProgramWrappedPrivate where
  m_includePaths : List String
  m_autoresolver : List String
deriving DecidableEq, Repr

/-- The state built by the constructor: both vectors start empty. -/
def OpenGLShaderProgramWrappedPrivate.new : OpenGLShaderProgramWrappedPrivate :=
  { m_includePaths := [], m_autoresolver := [] }

/-- The part of `OpenGLUniformBufferObject` read by the binder: `locationId()`
(the binding point) and `bufferId()` (the buffer storage identifier). -/
structure OpenGLUniformBufferObject where
  locationId : Nat
  bufferId : Nat
deriving DecidableEq, Repr

/-- Value of `QOpenGLShader::ShaderType` (a bit flag). -/
abbrev ShaderType := Nat

/-- The GL enumerant `GL_UNIFORM_BUFFER`. -/
def GL_UNIFORM_BUFFER : Nat := 0x8A11

/-- What the GLSL parser is configured with before `parse()` runs: the text the
reader yields, `setFilePath`, the `addIncludePath` calls in order, and the
content of the vector handed over by `setAutoresolver`. -/
structure ParserInput where
  source : String
  filePath : String
  includePaths : List String
  autoresolver : List String
deriving DecidableEq, Repr

/-- What a run of the GLSL parser leaves behind: the value of `parse()`, the text
it wrote to its writer, and the content of the autoresolve vector afterwards. -/
structure ParserOutput where
  result : Bool
  written : String
  autoresolver : List String
deriving DecidableEq, Repr

/-- Calls made by the wrapped program on its collaborators, in program order. -/
inductive Call where
  | checkedLink
  | bind
  | release
  | glGetUniformBlockIndex (program : Nat) (name : String)
  | managerFind (name : String)
  | glBindBufferBase (target index buffer : Nat)
  | glUniformBlockBinding (program blockIndex binding : Nat)
  | readerOpen (fileName : String) (bufferSize : Nat)
  | parse (input : ParserInput)
  | addShaderFromSourceCode (type : ShaderType) (source : String)
deriving DecidableEq, Repr

/-- How a member function ends: it returns a `bool`, or `qFatal` terminates the
process with a diagnostic message. `qFatal` does not return, so the
`return false` written after it in `link` is never reached. -/
inductive Outcome where
  | returned (value : Bool)
  | fatal (message : String)
deriving DecidableEq, Repr

/-- Answers of the collaborators that are not part of this source file. -/
structure Env where
  /-- The current context, `QOpenGLContext::currentContext()`. -/
  context : QOpenGLContext
  /-- Value of `programId()`. -/
  programId : Nat
  /-- The constant `OpenGLUniformBufferObject::InvalidLocation`. -/
  InvalidLocation : Nat
  /-- Value returned by `OpenGLShaderProgramChecked::link()`. -/
  checkedLink : Bool
  /-- Value returned by `glGetUniformBlockIndex(programId(), name)`. -/
  blockIndex : String → Nat
  /-- Value returned by `OpenGLUniformBufferManager::find(name)`; `none` is the null pointer. -/
  find : String → Option OpenGLUniformBufferObject
  /-- The file system as seen by `KBufferedFileReader`: `none` when `valid()` is false. -/
  openFile : String → Option String
  /-- A run of `OpenGLSLParser` on a configured input. -/
  parse : ParserInput → ParserOutput
  /-- Value returned by `OpenGLShaderProgramChecked::addShaderFromSourceCode`. -/
  compile : ShaderType → String → Bool

/-- State after a member function, the calls it made, and how it ended. -/
structure Result where
  state : OpenGLShaderProgramWrappedPrivate
  trace : List Call
  outcome : Outcome
deriving DecidableEq, Repr

/-! ## Operations -/

/-- Embedding of `OpenGLShaderProgramWrapped::addIncludePath`. -/
def addIncludePath (p : OpenGLShaderProgramWrappedPrivate) (path : String) :
    OpenGLShaderProgramWrappedPrivate :=
  { p with m_includePaths := p.m_includePaths ++ [path] }

/-- Modelled from the spec: `KStringWriter` is not part of this source file; the
text written through a writer constructed on `ppSource` is accumulated after
the content already in `ppSource` (the version comment is prepended to the
output buffer). -/
def KStringWriter.write (ppSource written : String) : String :=
  ppSource ++ written

/-- The parser configuration built by `addShaderFromSourceFile`: the reader on the
opened file, `setFilePath(fileName)`, one `addIncludePath` per entry of
`m_includePaths` in order, and `setAutoresolver(&p.m_autoresolver)`. -/
def parserInput (p : OpenGLShaderProgramWrappedPrivate) (fileName content : String) :
    ParserInput :=
  { source := content, filePath := fileName,
    includePaths := p.m_includePaths, autoresolver := p.m_autoresolver }

/-- Embedding of `OpenGLShaderProgramWrapped::addShaderFromSourceFile`. -/
def addShaderFromSourceFile (env : Env) (p : OpenGLShaderProgramWrappedPrivate)
    (type : ShaderType) (fileName : String) : Result :=
  let ppSource := getVersionComment env.context
  let opened := [Call.readerOpen fileName 1024]
  match env.openFile fileName with
  | none =>
    { state := p, trace := opened,
      outcome := .fatal ("Failed to open file: `" ++ fileName ++ "`") }
  | some content =>
    let input := parserInput p fileName content
    let out := env.parse input
    let ppSource := KStringWriter.write ppSource out.written
    let p1 := { p with m_autoresolver := out.autoresolver }
    if out.result then
      { state := p1,
        trace := opened ++ [.parse input, .addShaderFromSourceCode type ppSource],
        outcome := .returned (env.compile type ppSource) }
    else
      { state := p1, trace := opened ++ [.parse input], outcome := .returned false }

/-- Embedding of `uniformBlockBinding(unsigned, const OpenGLUniformBufferObject&)`:
the two GL calls it issues. -/
def uniformBlockBinding (env : Env) (location : Nat) (ubo : OpenGLUniformBufferObject) :
    List Call :=
  [ .glBindBufferBase GL_UNIFORM_BUFFER ubo.locationId ubo.bufferId,
    .glUniformBlockBinding env.programId location ubo.locationId ]

/-- Embedding of `uniformBlockLocation`: the GL query it issues and its value. -/
def uniformBlockLocation (env : Env) (location : String) : List Call × Nat :=
  ([.glGetUniformBlockIndex env.programId location], env.blockIndex location)

/-- The range-for loop of `link` over the autoresolve names: the calls made, and
the diagnostic of the `qFatal` that stopped it, if any. -/
def autoresolve (env : Env) : List String → List Call × Option String
  | [] => ([], none)
  | resolver :: rest =>
    let q := uniformBlockLocation env resolver
    let loc := q.2
    if loc = env.InvalidLocation then
      (q.1, some ("Failed to find the UBO `" ++ resolver ++ "` to for autoresolve."))
    else
      match env.find resolver with
      | none =>
        (q.1 ++ [.managerFind resolver],
          some ("Manager has no knowledge of the UBO `" ++ resolver ++ "`."))
      | some ubo =>
        let r := autoresolve env rest
        (q.1 ++ [.managerFind resolver] ++ uniformBlockBinding env loc ubo ++ r.1, r.2)

/-- Embedding of `OpenGLShaderProgramWrapped::link`. -/
def link (env : Env) (p : OpenGLShaderProgramWrappedPrivate) : Result :=
  let ret := env.checkedLink
  if p.m_autoresolver ≠ [] then
    let r := autoresolve env p.m_autoresolver
    match r.2 with
    | some message =>
      { state := p, trace := [.checkedLink, .bind] ++ r.1, outcome := .fatal message }
    | none =>
      { state := p, trace := [.checkedLink, .bind] ++ r.1 ++ [.release],
        outcome := .returned ret }
  else
    { state := p, trace := [.checkedLink], outcome := .returned ret }

/-! ## Observations on traces -/

/-- A call that attaches a buffer to a binding point or a block to a binding point. -/
def Call.isBinding : Call → Bool
  | .glBindBufferBase _ _ _ => true
  | .glUniformBlockBinding _ _ _ => true
  | _ => false

/-- The name a call queries a uniform block index for, if it is such a query. -/
def Call.queriedName : Call → Option String
  | .glGetUniformBlockIndex _ name => some name
  | _ => none

/-- The names for which a trace queries a uniform block index, in order. -/
def queriedNames (trace : List Call) : List String :=
  trace.filterMap Call.queriedName

/-- The calls of one loop iteration of `link` for a name whose block index is
valid and whose registry entry is `ubo name`: the block-index query, the
registry lookup, then the binding of the entry at the queried index. -/
def boundCalls (env : Env) (ubo : String → OpenGLUniformBufferObject) (name : String) :
    List Call :=
  [ .glGetUniformBlockIndex env.programId name,
    .managerFind name,
    .glBindBufferBase GL_UNIFORM_BUFFER (ubo name).locationId (ubo name).bufferId,
    .glUniformBlockBinding env.programId (env.blockIndex name) (ubo name).locationId ]

/-- The first line of a text, without its terminating newline. -/
def firstLine (s : String) : String :=
  String.mk (s.data.takeWhile (fun c => c != '\n'))

/-! ## Concrete environments -/

/-- The autoresolve names declared by the sources of the sample file system. -/
def sampleNames (source : String) : List String :=
  if source = "uniform Camera;" then ["Camera"]
  else if source = "uniform Lights; uniform Camera;" then ["Lights", "Camera"]
  else []

/-- A desktop 3.3 context with a program whose linked blocks are `Camera` (index 0)
and `Lights` (index 1), a registry that knows `Camera` only, and three
readable files, the last of which the parser rejects. -/
def cameraEnv : Env where
  context := { version := (3, 3), isOpenGLES := false }
  programId := 7
  InvalidLocation := 4294967295
  checkedLink := true
  blockIndex := fun n => if n = "Camera" then 0 else if n = "Lights" then 1 else 4294967295
  find := fun n => if n = "Camera" then some { locationId := 2, bufferId := 11 } else none
  openFile := fun f =>
    if f = "a.vert" then some "uniform Camera;"
    else if f = "b.frag" then some "uniform Lights; uniform Camera;"
    else if f = "c.geom" then some "include missing"
    else none
  parse := fun i =>
    { result := i.source != "include missing",
      written := if i.source = "include missing" then "" else i.source,
      autoresolver := i.autoresolver ++ sampleNames i.source }
  compile := fun _ _ => true

/-- The environment `cameraEnv` with an underlying link step that fails. -/
def failedLinkEnv : Env :=
  { cameraEnv with checkedLink := false }

/-- The registry entry used for every name in the sample environments. -/
def cameraUbo : String → OpenGLUniformBufferObject :=
  fun _ => { locationId := 2, bufferId := 11 }

/-! ## The version comment -/

/-- C1: on a desktop context the versions (2,0), (2,1), (3,0), (3,1), (3,2) and
(4,5) give the directives 110, 120, 130, 140, 150 and 450, each as
`#version NNN` followed by a newline. -/
theorem getVersionComment_desktop_table :
    getVersionComment { version := (2, 0), isOpenGLES := false } = "#version 110\n" ∧
    getVersionComment { version := (2, 1), isOpenGLES := false } = "#version 120\n" ∧
    getVersionComment { version := (3, 0), isOpenGLES := false } = "#version 130\n" ∧
    getVersionComment { version := (3, 1), isOpenGLES := false } = "#version 140\n" ∧
    getVersionComment { version := (3, 2), isOpenGLES := false } = "#version 150\n" ∧
    getVersionComment { version := (4, 5), isOpenGLES := false } = "#version 450\n" := by
  decide

/-- C2 as stated fails: the desktop version (2,2) is none of the five table rows,
yet the directive is `#version 120`, not the concatenation `#version 220`. -/
theorem getVersionComment_desktop_2_2_not_concat :
    ((2, 2) : Int × Int) ∉ [((2, 0) : Int × Int), (2, 1), (3, 0), (3, 1), (3, 2)] ∧
    getVersionComment { version := (2, 2), isOpenGLES := false } = "#version 120\n" ∧
    getVersionComment { version := (2, 2), isOpenGLES := false } ≠
      "#version " ++ QString.number 2 ++ QString.number 2 ++ "0" ++ "\n" := by
  decide

/-- C2 amended: on a desktop context, for every (major, minor) that is none of the
five table rows, the directive is `#version 120` when major is 2 (the default
branch of the 2.x table) and otherwise `#version ` followed by the decimal text
of major, the decimal text of minor, `0` and a newline. -/
theorem getVersionComment_desktop_default (major minor : Int)
    (h : (major, minor) ∉ [((2, 0) : Int × Int), (2, 1), (3, 0), (3, 1), (3, 2)]) :
    getVersionComment { version := (major, minor), isOpenGLES := false } =
      if major = 2 then "#version 120\n"
      else "#version " ++ QString.number major ++ QString.number minor ++ "0" ++ "\n" := by
  simp only [List.mem_cons, Prod.mk.injEq, List.mem_nil_iff, or_false, not_or, not_and] at h
  obtain ⟨h20, h21, h30, h31, h32⟩ := h
  unfold getVersionComment
  by_cases h2 : major = 2
  · subst h2
    have e0 : minor ≠ 0 := h20 rfl
    simp only [Bool.false_eq_true, if_false, if_true, e0]
    split_ifs <;> rfl
  · by_cases h3 : major = 3
    · subst h3
      have e0 : minor ≠ 0 := h30 rfl
      have e1 : minor ≠ 1 := h31 rfl
      have e2 : minor ≠ 2 := h32 rfl
      simp [e0, e1, e2, String.append_assoc]
    · simp [h2, h3, String.append_assoc]

/-- Witness for `getVersionComment_desktop_default` at the desktop version (4,5). -/
theorem getVersionComment_desktop_default_witness :
    getVersionComment { version := (4, 5), isOpenGLES := false } =
      if (4 : Int) = 2 then "#version 120\n"
      else "#version " ++ QString.number 4 ++ QString.number 5 ++ "0" ++ "\n" :=
  getVersionComment_desktop_default 4 5 (by decide)

/-- C3: on an ES context, for every major and minor the directive is `#version `
followed by the decimal text of major, the decimal text of minor and `0 es`
with a newline, whatever the desktop table says; (3,0) gives `#version 300 es`. -/
theorem getVersionComment_es (major minor : Int) :
    getVersionComment { version := (major, minor), isOpenGLES := true } =
      "#version " ++ QString.number major ++ QString.number minor ++ "0 es\n" ∧
    getVersionComment { version := (3, 0), isOpenGLES := true } = "#version 300 es\n" := by
  refine ⟨?_, by decide⟩
  unfold getVersionComment
  have e : "0 es" ++ "\n" = "0 es\n" := by decide
  simp [String.append_assoc, e]


/-! ## The autoresolve binder -/

/-- The loop over a resolved prefix: every name of the prefix is bound, then the
loop continues with the remaining names. -/
theorem autoresolve_append (env : Env) (ubo : String → OpenGLUniformBufferObject)
    (pre rest : List String)
    (h : ∀ n ∈ pre, env.blockIndex n ≠ env.InvalidLocation ∧ env.find n = some (ubo n)) :
    autoresolve env (pre ++ rest) =
      (pre.flatMap (boundCalls env ubo) ++ (autoresolve env rest).1,
        (autoresolve env rest).2) := by
  induction pre with
  | nil => simp
  | cons a l ih =>
    have ha := h a (List.mem_cons_self a l)
    have hl : ∀ n ∈ l, env.blockIndex n ≠ env.InvalidLocation ∧ env.find n = some (ubo n) :=
      fun n hn => h n (List.mem_cons_of_mem a hn)
    simp only [List.cons_append, autoresolve, uniformBlockLocation, ha.1, if_false, ha.2,
      List.flatMap_cons, boundCalls, uniformBlockBinding]
    simp only [List.append_eq, ih hl]
    simp

/-- No call of the loop makes the program current or releases it. -/
theorem autoresolve_no_bind_release (env : Env) (l : List String) :
    Call.bind ∉ (autoresolve env l).1 ∧ Call.release ∉ (autoresolve env l).1 := by
  induction l with
  | nil => simp [autoresolve]
  | cons a l ih =>
    simp only [autoresolve, uniformBlockLocation]
    split_ifs with h1
    · simp
    · cases hf : env.find a with
      | none => simp
      | some u => simp [uniformBlockBinding, ih.1, ih.2]

/-- The binding calls among the calls of resolved iterations are the two binding
calls of each name, in order. -/
theorem filter_isBinding_boundCalls (env : Env) (ubo : String → OpenGLUniformBufferObject)
    (l : List String) :
    (l.flatMap (boundCalls env ubo)).filter Call.isBinding =
      l.flatMap (fun n => uniformBlockBinding env (env.blockIndex n) (ubo n)) := by
  rw [List.filter_flatMap]
  congr 1

/-- C4: when every autoresolve name has a valid block index and a registry entry,
`link` does not end in a fatal condition and returns the result of the
underlying link step; its calls are the underlying link and, for a non-empty
list, bind, the query, lookup and binding of each name in list order, release;
the binding calls are exactly one pair per list entry, attaching the entry's
buffer id to the entry's binding point and that binding point to the block
index queried for the name. -/
theorem link_all_resolved (env : Env) (p : OpenGLShaderProgramWrappedPrivate)
    (ubo : String → OpenGLUniformBufferObject)
    (h : ∀ n ∈ p.m_autoresolver,
      env.blockIndex n ≠ env.InvalidLocation ∧ env.find n = some (ubo n)) :
    (link env p).outcome = .returned env.checkedLink ∧
    (link env p).trace =
      Call.checkedLink ::
        (if p.m_autoresolver = [] then []
         else Call.bind :: (p.m_autoresolver.flatMap (boundCalls env ubo) ++ [Call.release])) ∧
    (link env p).trace.filter Call.isBinding =
      p.m_autoresolver.flatMap (fun n =>
        [ Call.glBindBufferBase GL_UNIFORM_BUFFER (ubo n).locationId (ubo n).bufferId,
          Call.glUniformBlockBinding env.programId (env.blockIndex n) (ubo n).locationId ]) ∧
    ((link env p).trace.filter Call.isBinding).length = 2 * p.m_autoresolver.length := by
  have hr := autoresolve_append env ubo p.m_autoresolver [] h
  simp only [List.append_nil, autoresolve] at hr
  have hb := filter_isBinding_boundCalls env ubo p.m_autoresolver
  simp only [uniformBlockBinding] at hb
  have hlen : ∀ l : List String, (l.flatMap (fun n =>
      [ Call.glBindBufferBase GL_UNIFORM_BUFFER (ubo n).locationId (ubo n).bufferId,
        Call.glUniformBlockBinding env.programId (env.blockIndex n) (ubo n).locationId ])).length
      = 2 * l.length := by
    intro l
    induction l with
    | nil => simp
    | cons a l ih => simp only [List.flatMap_cons, List.length_append, ih]; simp; omega
  by_cases he : p.m_autoresolver = []
  · simp [link, he, Call.isBinding]
  · have ht : (link env p).trace =
        Call.checkedLink :: Call.bind ::
          (p.m_autoresolver.flatMap (boundCalls env ubo) ++ [Call.release]) := by
      simp [link, he, hr]
    have ho : (link env p).outcome = .returned env.checkedLink := by
      simp [link, he, hr]
    refine ⟨ho, ?_, ?_, ?_⟩
    · simp [ht, he]
    · rw [ht]
      simp only [List.filter_cons, Call.isBinding, List.filter_append, hb]
      simp
    · rw [ht]
      simp only [List.filter_cons, Call.isBinding, List.filter_append, hb]
      simp [hlen]

/-- Witness for `link_all_resolved`: linked blocks `Camera` and `Lights`, the list
holding `Camera`, a registry containing `Camera`; exactly one binding is issued. -/
theorem link_all_resolved_witness :
    (link cameraEnv { m_includePaths := [], m_autoresolver := ["Camera"] }).outcome =
      .returned true ∧
    (link cameraEnv { m_includePaths := [], m_autoresolver := ["Camera"] }).trace.filter
        Call.isBinding =
      [Call.glBindBufferBase GL_UNIFORM_BUFFER 2 11, Call.glUniformBlockBinding 7 0 2] :=
  have h := link_all_resolved cameraEnv { m_includePaths := [], m_autoresolver := ["Camera"] }
    cameraUbo (by decide)
  ⟨h.1, h.2.2.1⟩

/-- The loop stopped by an unresolved name: when the list is `pre ++ bad :: post`,
every name of `pre` resolves and `bad` does not, the calls are those binding
the names of `pre` followed by the query (and, for a valid index, the lookup)
for `bad`, and the diagnostic names `bad`. -/
theorem link_stops_at (env : Env) (p : OpenGLShaderProgramWrappedPrivate)
    (ubo : String → OpenGLUniformBufferObject) (pre post : List String) (bad : String)
    (hl : p.m_autoresolver = pre ++ bad :: post)
    (hpre : ∀ n ∈ pre, env.blockIndex n ≠ env.InvalidLocation ∧ env.find n = some (ubo n))
    (hbad : env.blockIndex bad = env.InvalidLocation ∨ env.find bad = none) :
    (link env p).outcome =
      .fatal (if env.blockIndex bad = env.InvalidLocation
        then "Failed to find the UBO `" ++ bad ++ "` to for autoresolve."
        else "Manager has no knowledge of the UBO `" ++ bad ++ "`.") ∧
    (link env p).trace =
      [Call.checkedLink, Call.bind] ++ pre.flatMap (boundCalls env ubo) ++
        (if env.blockIndex bad = env.InvalidLocation
          then [Call.glGetUniformBlockIndex env.programId bad]
          else [Call.glGetUniformBlockIndex env.programId bad, Call.managerFind bad]) := by
  have hne : p.m_autoresolver ≠ [] := by simp [hl]
  have hr := autoresolve_append env ubo pre (bad :: post) hpre
  by_cases hb : env.blockIndex bad = env.InvalidLocation
  · simp [link, hne, hl, hr, autoresolve, uniformBlockLocation, hb]
  · have hf : env.find bad = none := hbad.resolve_left hb
    simp [link, hne, hl, hr, autoresolve, uniformBlockLocation, hb, hf]

/-- A list holding an unresolved name splits at its first unresolved name. -/
theorem exists_first_unresolved (env : Env) (l : List String)
    (h : ∃ n ∈ l, env.blockIndex n = env.InvalidLocation ∨ env.find n = none) :
    ∃ (pre : List String) (bad : String) (post : List String)
      (ubo : String → OpenGLUniformBufferObject),
      l = pre ++ bad :: post ∧
      (∀ n ∈ pre, env.blockIndex n ≠ env.InvalidLocation ∧ env.find n = some (ubo n)) ∧
      (env.blockIndex bad = env.InvalidLocation ∨ env.find bad = none) := by
  induction l with
  | nil => simp at h
  | cons a l ih =>
    by_cases ha : env.blockIndex a = env.InvalidLocation ∨ env.find a = none
    · exact ⟨[], a, l, fun _ => { locationId := 0, bufferId := 0 }, rfl, by simp, ha⟩
    · obtain ⟨n, hn, hu⟩ := h
      have hnl : n ∈ l := by
        rcases List.mem_cons.mp hn with e | e
        · exact absurd (e ▸ hu) ha
        · exact e
      obtain ⟨pre, bad, post, ubo, hl, hpre, hbad⟩ := ih ⟨n, hnl, hu⟩
      simp only [not_or] at ha
      obtain ⟨u, hu⟩ := Option.ne_none_iff_exists'.mp ha.2
      refine ⟨a :: pre, bad, post, fun m => if m = a then u else ubo m, by simp [hl], ?_, hbad⟩
      intro m hm
      rcases List.mem_cons.mp hm with e | e
      · subst e
        exact ⟨ha.1, by simp [hu]⟩
      · by_cases hma : m = a
        · subst hma
          exact ⟨ha.1, by simp [hu]⟩
        · exact ⟨(hpre m e).1, by simp [hma, (hpre m e).2]⟩

/-- C5: when some name of the autoresolve list has no valid block index or no
registry entry, the list splits at the first such name as `pre ++ bad :: post`
(every name of `pre` resolves, `bad` does not) and `link` ends in a fatal
condition at `bad`: its calls are the underlying link, bind, the query, lookup
and binding of each name of `pre`, then the block-index query for `bad` and,
only if that index is valid, the registry lookup for `bad`; nothing is done
for `post`. The block index is checked first, and the diagnostic names `bad`. -/
theorem link_fail_fast (env : Env) (p : OpenGLShaderProgramWrappedPrivate)
    (h : ∃ n ∈ p.m_autoresolver, env.blockIndex n = env.InvalidLocation ∨ env.find n = none) :
    ∃ (pre : List String) (bad : String) (post : List String)
      (ubo : String → OpenGLUniformBufferObject),
      p.m_autoresolver = pre ++ bad :: post ∧
      (∀ n ∈ pre, env.blockIndex n ≠ env.InvalidLocation ∧ env.find n = some (ubo n)) ∧
      (env.blockIndex bad = env.InvalidLocation ∨ env.find bad = none) ∧
      (link env p).outcome =
        .fatal (if env.blockIndex bad = env.InvalidLocation
          then "Failed to find the UBO `" ++ bad ++ "` to for autoresolve."
          else "Manager has no knowledge of the UBO `" ++ bad ++ "`.") ∧
      (link env p).trace =
        [Call.checkedLink, Call.bind] ++ pre.flatMap (boundCalls env ubo) ++
          (if env.blockIndex bad = env.InvalidLocation
            then [Call.glGetUniformBlockIndex env.programId bad]
            else [Call.glGetUniformBlockIndex env.programId bad, Call.managerFind bad]) := by
  obtain ⟨pre, bad, post, ubo, hl, hpre, hbad⟩ := exists_first_unresolved env p.m_autoresolver h
  exact ⟨pre, bad, post, ubo, hl, hpre, hbad, link_stops_at env p ubo pre post bad hl hpre hbad⟩

/-- Witness for `link_fail_fast`: in the list `Camera`, `Fog`, `Lights` the name
`Fog` is neither a linked block nor a registry entry, so the list splits at a
first unresolved name at which `link` is fatal. -/
theorem link_fail_fast_witness :
    ∃ (pre : List String) (bad : String) (post : List String)
      (ubo : String → OpenGLUniformBufferObject),
      ["Camera", "Fog", "Lights"] = pre ++ bad :: post ∧
      (∀ n ∈ pre, cameraEnv.blockIndex n ≠ cameraEnv.InvalidLocation ∧
        cameraEnv.find n = some (ubo n)) ∧
      (cameraEnv.blockIndex bad = cameraEnv.InvalidLocation ∨ cameraEnv.find bad = none) ∧
      (link cameraEnv
          { m_includePaths := [], m_autoresolver := ["Camera", "Fog", "Lights"] }).outcome =
        .fatal (if cameraEnv.blockIndex bad = cameraEnv.InvalidLocation
          then "Failed to find the UBO `" ++ bad ++ "` to for autoresolve."
          else "Manager has no knowledge of the UBO `" ++ bad ++ "`.") ∧
      (link cameraEnv
          { m_includePaths := [], m_autoresolver := ["Camera", "Fog", "Lights"] }).trace =
        [Call.checkedLink, Call.bind] ++ pre.flatMap (boundCalls cameraEnv ubo) ++
          (if cameraEnv.blockIndex bad = cameraEnv.InvalidLocation
            then [Call.glGetUniformBlockIndex cameraEnv.programId bad]
            else [Call.glGetUniformBlockIndex cameraEnv.programId bad, Call.managerFind bad]) :=
  link_fail_fast cameraEnv { m_includePaths := [], m_autoresolver := ["Camera", "Fog", "Lights"] }
    ⟨"Fog", by decide, by decide⟩

/-- The sample list `Camera`, `Fog`, `Lights` evaluated: `Camera` is bound, `Fog` is
reported as a missing block after its block-index query alone, and nothing is
done for `Lights`. -/
theorem link_fail_fast_sample :
    link cameraEnv { m_includePaths := [], m_autoresolver := ["Camera", "Fog", "Lights"] } =
      { state := { m_includePaths := [], m_autoresolver := ["Camera", "Fog", "Lights"] },
        trace := [Call.checkedLink, Call.bind, Call.glGetUniformBlockIndex 7 "Camera",
          Call.managerFind "Camera", Call.glBindBufferBase GL_UNIFORM_BUFFER 2 11,
          Call.glUniformBlockBinding 7 0 2, Call.glGetUniformBlockIndex 7 "Fog"],
        outcome := .fatal "Failed to find the UBO `Fog` to for autoresolve." } := by
  decide

/-- C6, evaluated where the code departs from it: `link` should enter the binding
protocol only after a successful link and otherwise return false without
touching the program. With a failing underlying link step and the list holding
`Camera`, `link` instead makes the program current, queries, looks up, binds
and releases before returning false; with the list holding `Lights` it ends in
a fatal condition instead of returning false. The result of the underlying
link step is never tested before the loop. -/
theorem link_failed_still_binds :
    failedLinkEnv.checkedLink = false ∧
    link failedLinkEnv { m_includePaths := [], m_autoresolver := ["Camera"] } =
      { state := { m_includePaths := [], m_autoresolver := ["Camera"] },
        trace := [Call.checkedLink, Call.bind, Call.glGetUniformBlockIndex 7 "Camera",
          Call.managerFind "Camera", Call.glBindBufferBase GL_UNIFORM_BUFFER 2 11,
          Call.glUniformBlockBinding 7 0 2, Call.release],
        outcome := .returned false } ∧
    link failedLinkEnv { m_includePaths := [], m_autoresolver := ["Lights"] } =
      { state := { m_includePaths := [], m_autoresolver := ["Lights"] },
        trace := [Call.checkedLink, Call.bind, Call.glGetUniformBlockIndex 7 "Lights",
          Call.managerFind "Lights"],
        outcome := .fatal "Manager has no knowledge of the UBO `Lights`." } := by
  decide

/-- On every path on which `link` ends in a fatal condition, its calls are the
underlying link, one bind and calls that neither bind nor release. -/
theorem link_fatal_still_current (env : Env) (p : OpenGLShaderProgramWrappedPrivate)
    (message : String) (h : (link env p).outcome = .fatal message) :
    ∃ mid, (link env p).trace = [Call.checkedLink, Call.bind] ++ mid ∧
      Call.bind ∉ mid ∧ Call.release ∉ mid := by
  have hn := autoresolve_no_bind_release env p.m_autoresolver
  by_cases he : p.m_autoresolver = []
  · simp [link, he] at h
  · cases hr : (autoresolve env p.m_autoresolver).2 with
    | none => simp [link, he, hr] at h
    | some m =>
      simp only [link, he, hr, ne_eq, not_false_eq_true, if_true]
      exact ⟨_, rfl, hn.1, hn.2⟩

/-! ## The preprocessing front end -/

/-- No decimal digit character is a newline. -/
theorem digitChar_ne_newline (n : Nat) (h : n < 10) : Nat.digitChar n ≠ '\n' := by
  interval_cases n <;> decide

/-- Digits pushed in front of newline-free text leave it newline-free. -/
theorem toDigitsCore_no_newline (fuel : Nat) :
    ∀ (n : Nat) (ds : List Char), '\n' ∉ ds → '\n' ∉ Nat.toDigitsCore 10 fuel n ds := by
  induction fuel with
  | zero => intro n ds h; simpa [Nat.toDigitsCore] using h
  | succ f ih =>
    intro n ds h
    have hd : '\n' ∉ Nat.digitChar (n % 10) :: ds := by
      simp only [List.mem_cons, not_or]
      exact ⟨fun e => digitChar_ne_newline _ (Nat.mod_lt n (by decide)) e.symm, h⟩
    simp only [Nat.toDigitsCore]
    split_ifs
    · exact hd
    · exact ih _ _ hd

/-- The decimal text of an `int` holds no newline. -/
theorem number_no_newline (n : Int) : '\n' ∉ (QString.number n).data := by
  cases n with
  | ofNat m =>
    simp only [QString.number, Nat.repr, List.asString]
    exact toDigitsCore_no_newline _ _ _ (by simp)
  | negSucc m =>
    simp only [QString.number, Nat.repr, List.asString, String.data_append, List.mem_append,
      not_or]
    exact ⟨by decide, toDigitsCore_no_newline _ _ _ (by simp)⟩

/-- The version comment is newline-free text followed by a single newline. -/
theorem getVersionComment_shape (ctx : QOpenGLContext) :
    ∃ body : List Char, (getVersionComment ctx).data = body ++ ['\n'] ∧ '\n' ∉ body := by
  have h1 := number_no_newline ctx.version.1
  have h2 := number_no_newline ctx.version.2
  have hv : '\n' ∉ "#version ".data := by decide
  unfold getVersionComment
  simp only []
  split_ifs <;>
    refine ⟨_, String.data_append _ _, ?_⟩ <;>
    simp only [String.data_append, List.mem_append, not_or] <;>
    first
      | exact ⟨hv, by decide⟩
      | exact ⟨hv, ⟨h1, h2⟩, by decide⟩

/-- C8: on a readable file that the parser accepts, the calls are the opening of
the file, the parser run and one compile call for the requested stage whose
text is the version comment followed by the text the parser wrote; the value
returned is the result of that compile call; the first line of that text is
the version comment without its newline, and the version comment holds exactly
one newline, as its last character. -/
theorem addShaderFromSourceFile_success (env : Env) (p : OpenGLShaderProgramWrappedPrivate)
    (type : ShaderType) (fileName content : String)
    (hOpen : env.openFile fileName = some content)
    (hParse : (env.parse (parserInput p fileName content)).result = true) :
    (addShaderFromSourceFile env p type fileName).trace =
      [ Call.readerOpen fileName 1024,
        Call.parse (parserInput p fileName content),
        Call.addShaderFromSourceCode type
          (getVersionComment env.context ++
            (env.parse (parserInput p fileName content)).written) ] ∧
    (addShaderFromSourceFile env p type fileName).outcome =
      .returned (env.compile type
        (getVersionComment env.context ++
          (env.parse (parserInput p fileName content)).written)) ∧
    firstLine (getVersionComment env.context ++
        (env.parse (parserInput p fileName content)).written) ++ "\n" =
      getVersionComment env.context ∧
    (getVersionComment env.context).data.count '\n' = 1 ∧
    (getVersionComment env.context).data.getLast? = some '\n' := by
  obtain ⟨body, hb, hn⟩ := getVersionComment_shape env.context
  refine ⟨?_, ?_, ?_, ?_, ?_⟩
  · simp [addShaderFromSourceFile, hOpen, hParse, KStringWriter.write]
  · simp [addShaderFromSourceFile, hOpen, hParse, KStringWriter.write]
  · apply String.ext
    have ht : ∀ w : List Char,
        List.takeWhile (fun c => c != '\n') (body ++ ('\n' :: w)) = body := by
      intro w
      rw [List.takeWhile_append_of_pos]
      · simp
      · intro a ha
        have : a ≠ '\n' := fun e => hn (e ▸ ha)
        simpa using this
    simp only [firstLine, String.data_append, hb, List.append_assoc, List.singleton_append, ht]
  · rw [hb, List.count_append, List.count_eq_zero_of_not_mem hn]
    rfl
  · rw [hb, List.getLast?_concat]

/-- Witness for `addShaderFromSourceFile_success`: the sample vertex stage on a
desktop 3.3 context is compiled from `#version 330`, a newline and the text the
parser wrote. -/
theorem addShaderFromSourceFile_success_witness :
    (addShaderFromSourceFile cameraEnv OpenGLShaderProgramWrappedPrivate.new 1 "a.vert").trace =
      [ Call.readerOpen "a.vert" 1024,
        Call.parse (parserInput OpenGLShaderProgramWrappedPrivate.new "a.vert" "uniform Camera;"),
        Call.addShaderFromSourceCode 1 "#version 330\nuniform Camera;" ] ∧
    (addShaderFromSourceFile cameraEnv OpenGLShaderProgramWrappedPrivate.new 1 "a.vert").outcome =
      .returned true :=
  have h := addShaderFromSourceFile_success cameraEnv OpenGLShaderProgramWrappedPrivate.new 1
    "a.vert" "uniform Camera;" (by decide) (by decide)
  ⟨h.1, h.2.1⟩

/-- C9: when the source file cannot be opened, the function ends in a fatal
condition whose diagnostic names the file, after the attempt to open it and
before any parser run or compile call; when the file is readable and the parser
reports failure, the function returns false and its calls are the opening of
the file and the parser run, with no compile call. -/
theorem addShaderFromSourceFile_failure (env : Env) (p : OpenGLShaderProgramWrappedPrivate)
    (type : ShaderType) (fileName : String) :
    (env.openFile fileName = none →
      (addShaderFromSourceFile env p type fileName).outcome =
        .fatal ("Failed to open file: `" ++ fileName ++ "`") ∧
      (addShaderFromSourceFile env p type fileName).trace = [Call.readerOpen fileName 1024]) ∧
    (∀ content, env.openFile fileName = some content →
      (env.parse (parserInput p fileName content)).result = false →
      (addShaderFromSourceFile env p type fileName).outcome = .returned false ∧
      (addShaderFromSourceFile env p type fileName).trace =
        [ Call.readerOpen fileName 1024,
          Call.parse (parserInput p fileName content) ]) := by
  constructor
  · intro hOpen
    simp [addShaderFromSourceFile, hOpen]
  · intro content hOpen hParse
    simp [addShaderFromSourceFile, hOpen, hParse]

/-- Witness for `addShaderFromSourceFile_failure`: a missing file is fatal, and a
readable file with an include the parser cannot resolve returns false. -/
theorem addShaderFromSourceFile_failure_witness :
    (addShaderFromSourceFile cameraEnv OpenGLShaderProgramWrappedPrivate.new 1
        "missing.vert").outcome = .fatal "Failed to open file: `missing.vert`" ∧
    (addShaderFromSourceFile cameraEnv OpenGLShaderProgramWrappedPrivate.new 4 "c.geom").trace =
      [ Call.readerOpen "c.geom" 1024,
        Call.parse (parserInput OpenGLShaderProgramWrappedPrivate.new "c.geom"
          "include missing") ] :=
  ⟨((addShaderFromSourceFile_failure cameraEnv OpenGLShaderProgramWrappedPrivate.new 1
      "missing.vert").1 (by decide)).1,
   ((addShaderFromSourceFile_failure cameraEnv OpenGLShaderProgramWrappedPrivate.new 4
      "c.geom").2 "include missing" (by decide) (by decide)).2⟩

/-! ## The accumulated autoresolve list -/

/-- The names queried by the loop form an initial segment of the list it runs
over, and the whole list when no fatal condition stops it. -/
theorem autoresolve_queries (env : Env) (l : List String) :
    ∃ rest, l = queriedNames (autoresolve env l).1 ++ rest ∧
      ((autoresolve env l).2 = none → rest = []) := by
  induction l with
  | nil => exact ⟨[], by simp [autoresolve, queriedNames], fun _ => rfl⟩
  | cons a l ih =>
    obtain ⟨rest, h1, h2⟩ := ih
    simp only [autoresolve, uniformBlockLocation]
    split_ifs with hb
    · exact ⟨l, by simp [queriedNames, Call.queriedName], by simp⟩
    · cases hf : env.find a with
      | none => exact ⟨l, by simp [queriedNames, Call.queriedName], by simp⟩
      | some u =>
        refine ⟨rest, ?_, ?_⟩
        · simp only [queriedNames] at h1
          simp only [queriedNames, uniformBlockBinding, List.filterMap_append,
            List.filterMap_cons, Call.queriedName, List.filterMap_nil, List.nil_append,
            List.singleton_append, List.cons_append, List.cons.injEq, true_and]
          exact h1
        · exact h2

/-- The names `link` queries form an initial segment of `m_autoresolver`, and the
whole of it when `link` returns. -/
theorem link_queries (env : Env) (p : OpenGLShaderProgramWrappedPrivate) :
    ∃ rest, p.m_autoresolver = queriedNames (link env p).trace ++ rest ∧
      (∀ b, (link env p).outcome = .returned b → rest = []) := by
  by_cases he : p.m_autoresolver = []
  · exact ⟨[], by simp [link, he, queriedNames, Call.queriedName], fun _ _ => rfl⟩
  · obtain ⟨rest, h1, h2⟩ := autoresolve_queries env p.m_autoresolver
    simp only [queriedNames] at h1
    cases hr : (autoresolve env p.m_autoresolver).2 with
    | none =>
      refine ⟨rest, ?_, fun _ _ => h2 hr⟩
      simp only [link, he, hr, ne_eq, not_false_eq_true, if_true, queriedNames,
        List.filterMap_append, List.filterMap_cons, Call.queriedName, List.filterMap_nil,
        List.nil_append, List.append_nil, h2 hr]
      simpa [h2 hr] using h1
    | some m =>
      refine ⟨rest, ?_, ?_⟩
      · simp only [link, he, hr, ne_eq, not_false_eq_true, if_true, queriedNames,
          List.filterMap_append, List.filterMap_cons, Call.queriedName, List.filterMap_nil,
          List.nil_append]
        exact h1
      · intro b hb
        simp [link, he, hr] at hb

/-- C10: assuming a parser run only appends the names it sees (`names input`) to the
list it is handed, after `addShaderFromSourceFile` on a readable file A and then
on a readable file B the list is the previous list followed by A's names and
then B's names, in order and with duplicates kept; `link` and `addIncludePath`
leave the list as it is, and the names `link` queries are an initial segment of
that list, all of it when `link` returns. -/
theorem autoresolver_accumulates (env : Env) (names : ParserInput → List String)
    (hAppend : ∀ input, (env.parse input).autoresolver = input.autoresolver ++ names input)
    (p : OpenGLShaderProgramWrappedPrivate) (typeA typeB : ShaderType)
    (fileA fileB srcA srcB : String)
    (hA : env.openFile fileA = some srcA) (hB : env.openFile fileB = some srcB) :
    (addShaderFromSourceFile env p typeA fileA).state.m_autoresolver =
      p.m_autoresolver ++ names (parserInput p fileA srcA) ∧
    (addShaderFromSourceFile env (addShaderFromSourceFile env p typeA fileA).state
        typeB fileB).state.m_autoresolver =
      p.m_autoresolver ++ names (parserInput p fileA srcA) ++
        names (parserInput (addShaderFromSourceFile env p typeA fileA).state fileB srcB) ∧
    (∀ q : OpenGLShaderProgramWrappedPrivate, (link env q).state = q) ∧
    (∀ (q : OpenGLShaderProgramWrappedPrivate) (path : String),
      (addIncludePath q path).m_autoresolver = q.m_autoresolver) ∧
    (∀ q : OpenGLShaderProgramWrappedPrivate,
      ∃ rest, q.m_autoresolver = queriedNames (link env q).trace ++ rest ∧
        (∀ b, (link env q).outcome = .returned b → rest = [])) := by
  have hstate : ∀ (q : OpenGLShaderProgramWrappedPrivate) (t : ShaderType) (f src : String),
      env.openFile f = some src →
      (addShaderFromSourceFile env q t f).state.m_autoresolver =
        q.m_autoresolver ++ names (parserInput q f src) := by
    intro q t f src ho
    have e := hAppend (parserInput q f src)
    simp only [addShaderFromSourceFile, ho]
    split_ifs <;> simpa [parserInput] using e
  refine ⟨hstate p typeA fileA srcA hA, ?_, ?_, ?_, fun q => link_queries env q⟩
  · rw [hstate _ typeB fileB srcB hB, hstate p typeA fileA srcA hA]
  · intro q
    simp only [link]
    split_ifs
    · split <;> rfl
    · rfl
  · intro q path
    rfl

/-- Witness for `autoresolver_accumulates`: a fresh program fed the sample vertex
stage and then the sample fragment stage holds the names of the first followed
by the names of the second, the repeated `Camera` included. -/
theorem autoresolver_accumulates_witness :
    (addShaderFromSourceFile cameraEnv
        (addShaderFromSourceFile cameraEnv OpenGLShaderProgramWrappedPrivate.new 1 "a.vert").state
        2 "b.frag").state.m_autoresolver =
      ["Camera", "Lights", "Camera"] :=
  (autoresolver_accumulates cameraEnv (fun input => sampleNames input.source)
    (fun _ => rfl) OpenGLShaderProgramWrappedPrivate.new 1 2 "a.vert" "b.frag"
    "uniform Camera;" "uniform Lights; uniform Camera;" (by decide) (by decide)).2.1

end QtOpenGL
